import Mathlib

/-!
Verification model of the PCM audio playback engine of the
Gemini-Video-Translator repository (the AudioPlayer component).

The component keeps mutable refs (audio output context, decoded sample
buffer, current AudioBufferSourceNode, session start timestamp,
accumulated pause offset, pending animation-frame callback id) plus two
pieces of rendered state (isPlaying, progress).  We embed it as a record
`TState` and translate each function of the source (`decodeAudio`,
`play`, `pause`, `stop`, `togglePlay`, `updateProgress`) into a pure
state transformer.  Readings of `audioContext.currentTime` are passed
explicitly as a rational argument `now`; the animation-frame polling
loop is modelled by `pollStep`, which fires the pending callback once.
Every created playback unit is retained in a history list so that
properties about concurrently playing units can be stated.
-/

namespace VideoTranslator

/-- Failure modes of the decode path.  In the source all three surface as
thrown exceptions inside the `try` block of `decodeAudio`:
`atob` throws on malformed base64, `new Int16Array(bytes.buffer)` throws a
RangeError when the byte length is not a multiple of 2, and
`ctx.createBuffer(1, frameCount, 24000)` throws a NotSupportedError when
`frameCount` is 0 (Web Audio API: the length argument must be greater
than zero). -/
inductive DecodeError where
  | malformedBase64
  | oddByteLength
  | emptyBuffer
deriving DecidableEq

/-- Input to the decoder: the outcome of `atob(base64Audio)` together with
the per-character byte extraction loop.  `malformed` is a base64 text on
which `atob` throws; `bytes bs` is a text that decodes to the byte
sequence `bs` (each entry is stored into a `Uint8Array`, hence reduced
mod 256 by `int16FromLE`). -/
inductive DecodeInput where
  | malformed
  | bytes (bs : List ℕ)
deriving DecidableEq

/-- Reinterpretation of two consecutive bytes as one signed 16-bit
little-endian integer, as `new Int16Array(bytes.buffer)` does on the
(little-endian) browser platforms the component targets.  The `% 256`
is the `Uint8Array` store semantics of `bytes[i] = charCodeAt(i)`. -/
def int16FromLE (lo hi : ℕ) : ℤ :=
  if lo % 256 + 256 * (hi % 256) < 32768
  then ((lo % 256 + 256 * (hi % 256) : ℕ) : ℤ)
  else ((lo % 256 + 256 * (hi % 256) : ℕ) : ℤ) - 65536

/-- The full `Int16Array` view of the byte sequence: consecutive pairs of
bytes become signed 16-bit values.  A trailing odd byte cannot occur on
the path where this is used (the view construction throws first). -/
def toInt16Pairs : List ℕ → List ℤ
  | lo :: hi :: rest => int16FromLE lo hi :: toInt16Pairs rest
  | _ => []

/-- Decoded audio: the `AudioBuffer` produced by
`ctx.createBuffer(numChannels, frameCount, sampleRate)` and the
`channelData[i] = dataInt16[i] / 32768.0` fill loop. -/
structure SampleBuffer where
  samples : List ℚ
  numChannels : ℕ
  sampleRate : ℚ
deriving DecidableEq

/-- `AudioBuffer.duration` = frame count divided by sample rate. -/
def SampleBuffer.duration (b : SampleBuffer) : ℚ :=
  (b.samples.length : ℚ) / b.sampleRate

/-- The decode computation of `decodeAudio` in the source, from the
`atob` call to the filled buffer, with each throw site mapped to a
`DecodeError`:
base64-decode, reinterpret the bytes as an `Int16Array` (throws unless
the byte length is a multiple of 2), create a 1-channel 24000 Hz buffer
of `frameCount = dataInt16.length` frames (throws when the frame count is
0), and normalize each sample by dividing by 32768.0. -/
def decodeAudio : DecodeInput → Except DecodeError SampleBuffer
  | DecodeInput.malformed => Except.error DecodeError.malformedBase64
  | DecodeInput.bytes bs =>
    if bs.length % 2 ≠ 0 then Except.error DecodeError.oddByteLength
    else
      let dataInt16 := toInt16Pairs bs
      if dataInt16.length = 0 then Except.error DecodeError.emptyBuffer
      else
        Except.ok { samples := dataInt16.map (fun v : ℤ => (v : ℚ) / 32768),
                    numChannels := 1,
                    sampleRate := 24000 }

/-- State of the audio output context (`AudioContext.state`). -/
inductive CtxState where
  | running
  | suspended
  | closed
deriving DecidableEq

/-- One `AudioBufferSourceNode`: the context timestamp at which
`source.start(0, offset)` ran, the buffer offset it was seeded with, and
whether `source.stop()` has been called on it. -/
structure SourceNode where
  startCtxTime : ℚ
  offset : ℚ
  stopped : Bool
deriving DecidableEq

instance : Inhabited SourceNode := ⟨⟨0, 0, false⟩⟩

/-- Failure of the underlying one-shot playback primitive when asked to
stop. -/
inductive StopErr where
  | invalidState
deriving DecidableEq

/-- `source.stop()` on the raw playback primitive.  The primitive may
reject the call (the source wraps it in `try { source.stop() } catch {}`);
we model the rejecting case as a unit that has already been stopped. -/
def SourceNode.primStop (u : SourceNode) : Except StopErr SourceNode :=
  if u.stopped then Except.error StopErr.invalidState
  else Except.ok { u with stopped := true }

/-- The whole mutable state of the AudioPlayer component:
`isPlaying`/`progress` are the two `useState` cells, the rest are refs.
`units` is the history of every source node ever created (most recent
last) and `srcRef` is the index `sourceRef.current` points at, if any.
`animFrame` records whether an animation-frame callback is pending. -/
structure TState where
  isPlaying : Bool
  progress : ℚ
  ctx : Option CtxState
  buffer : Option SampleBuffer
  startTime : ℚ
  pauseTime : ℚ
  animFrame : Bool
  units : List SourceNode
  srcRef : Option ℕ
deriving DecidableEq

/-- Component state right after mount, before the decode effect runs. -/
def initState : TState :=
  { isPlaying := false, progress := 0, ctx := none, buffer := none,
    startTime := 0, pauseTime := 0, animFrame := false,
    units := [], srcRef := none }

/-- `stop()` from the source: if a source node is referenced, try to stop
it and ignore any error; clear the reference; cancel any pending
animation frame; set `isPlaying` to false. -/
def stop (s : TState) : TState :=
  let units :=
    match s.srcRef with
    | some i =>
      match SourceNode.primStop (s.units.getD i default) with
      | Except.ok u => s.units.set i u
      | Except.error _ => s.units
    | none => s.units
  { s with units := units, srcRef := none, animFrame := false,
           isPlaying := false }

/-- `pause()` from the source: requires the context ref to be present;
calls `stop()`, then accumulates `currentTime - startTimeRef.current`
into `pauseTimeRef.current`. -/
def pause (now : ℚ) (s : TState) : TState :=
  match s.ctx with
  | none => s
  | some _ =>
    let s1 := stop s
    { s1 with pauseTime := s1.pauseTime + (now - s1.startTime) }

/-- `play()` from the source: requires context and buffer refs; resumes a
suspended context; creates a fresh source node seeded with the buffer and
started at offset `pauseTimeRef.current`; overwrites `sourceRef.current`
with it (without stopping any previous node); records the current context
time as the session start; sets `isPlaying`; queues the progress poll. -/
def play (now : ℚ) (s : TState) : TState :=
  match s.ctx, s.buffer with
  | some cst, some _ =>
    let cst1 := if cst = CtxState.suspended then CtxState.running else cst
    { s with ctx := some cst1,
             units := s.units ++
               [{ startCtxTime := now, offset := s.pauseTime, stopped := false }],
             srcRef := some s.units.length,
             startTime := now,
             isPlaying := true,
             animFrame := true }
  | _, _ => s

/-- The body of `updateProgress` from the source.  It returns immediately
when the context ref, the buffer ref, or the recorded start time is
falsy (`!startTimeRef.current` is true exactly when the stored timestamp
is 0).  Otherwise it computes
`elapsed = currentTime - startTime + pauseTime`,
sets `progress = min(elapsed / duration * 100, 100)`, and either
re-queues itself (elapsed < duration) or declares completion:
`isPlaying = false`, `pauseTimeRef.current = 0`, `progress = 100`,
with no re-queue. -/
def updateProgress (now : ℚ) (s : TState) : TState :=
  match s.ctx, s.buffer with
  | some _, some buf =>
    if s.startTime = 0 then s
    else
      let elapsed := now - s.startTime + s.pauseTime
      let duration := buf.duration
      let percent := min (elapsed / duration * 100) 100
      if elapsed < duration then
        { s with progress := percent, animFrame := true }
      else
        { s with progress := 100, isPlaying := false, pauseTime := 0 }
  | _, _ => s

/-- One firing of the polling loop: if an animation-frame callback is
pending, it is consumed and `updateProgress` runs (re-queuing itself only
through its own `requestAnimationFrame` call); otherwise nothing
happens. -/
def pollStep (now : ℚ) (s : TState) : TState :=
  if s.animFrame then updateProgress now { s with animFrame := false } else s

/-- `togglePlay()` from the source: pause when playing; otherwise, when
`progress >= 100`, zero the accumulated offset and the progress readout
before playing. -/
def togglePlay (now : ℚ) (s : TState) : TState :=
  if s.isPlaying then pause now s
  else
    let s1 := if 100 ≤ s.progress then { s with pauseTime := 0, progress := 0 }
              else s
    play now s1

/-- Whether a source node is audibly playing at context time `now`, for a
buffer of duration `dur`: it was started no later than `now`, has not
been explicitly stopped, and has not yet reached the end of the buffer
(a node started at offset `off` ends naturally `dur - off` after its
start). -/
def SourceNode.playingAt (dur now : ℚ) (u : SourceNode) : Bool :=
  !u.stopped && decide (u.startCtxTime ≤ now) &&
    decide (now < u.startCtxTime + (dur - u.offset))

/-- Number of source nodes of the component concurrently playing at
context time `now`. -/
def liveUnitCount (s : TState) (now : ℚ) : ℕ :=
  match s.buffer with
  | some buf => (s.units.filter (SourceNode.playingAt buf.duration now)).length
  | none => 0

/-- One run of the async `decodeAudio` effect body with `autoPlay = false`:
lazily create the output context when the ref is empty, run the decode,
and on success store the buffer.  The whole body sits in a `try`/`catch`
whose handler only calls `console.error`; the second component is that
console log (`some e` when an error was caught), which is the only place
a decode failure goes. -/
def decodeAudioRun (inp : DecodeInput) (s : TState) : TState × Option DecodeError :=
  let s0 := if s.ctx.isNone then { s with ctx := some CtxState.running } else s
  match decodeAudio inp with
  | Except.ok buf => ({ s0 with buffer := some buf }, none)
  | Except.error e => (s0, some e)

/-- The caller-visible settlement of the async `decodeAudio` effect.
Because the entire body is wrapped in `try { ... } catch (e)
{ console.error(...) }`, the promise always resolves normally: no error
value ever reaches the caller. -/
def decodeAudioCallerOutcome (inp : DecodeInput) (s : TState) :
    Except DecodeError TState :=
  Except.ok (decodeAudioRun inp s).1

/-- The effect cleanup's context handling:
`if (audioContextRef.current?.state !== 'closed') audioContextRef.current?.close()`.
The context is closed but the ref is NOT cleared. -/
def closeCtx (s : TState) : TState :=
  match s.ctx with
  | some cst =>
    if cst = CtxState.closed then s else { s with ctx := some CtxState.closed }
  | none => s

/-- Replacing the `base64Audio` prop: React runs the previous effect's
cleanup (`stop()` then close the context) and then re-runs the effect
body (`decodeAudioRun`) on the new input. -/
def blockReplace (inp : DecodeInput) (s : TState) : TState × Option DecodeError :=
  decodeAudioRun inp (closeCtx (stop s))

/-- An externally driven `play()`/`pause()` call with its context
timestamp. -/
inductive PPAct where
  | playAt (now : ℚ)
  | pauseAt (now : ℚ)
deriving DecidableEq

/-- Timestamp of a transport call. -/
def PPAct.time : PPAct → ℚ
  | PPAct.playAt t => t
  | PPAct.pauseAt t => t

/-- Apply one transport call to the component state. -/
def ppStep (s : TState) : PPAct → TState
  | PPAct.playAt t => play t s
  | PPAct.pauseAt t => pause t s

/-- Apply a sequence of transport calls, oldest first. -/
def ppRun : TState → List PPAct → TState
  | s, [] => s
  | s, a :: rest => ppRun (ppStep s a) rest

/-- The timestamps of a call sequence are non-decreasing and bounded
below by `t`. -/
def timesMonoB : ℚ → List PPAct → Bool
  | _, [] => true
  | t, a :: rest => decide (t ≤ a.time) && timesMonoB a.time rest

/-- A two-sample decoded buffer (duration `2 / 24000 = 1/12000` s). -/
def twoSampleBuffer : SampleBuffer :=
  { samples := [0, 0], numChannels := 1, sampleRate := 24000 }

/-- Component state after a successful decode of a two-sample block:
running context, buffer present, nothing played yet. -/
def readyState : TState :=
  { initState with ctx := some CtxState.running,
                   buffer := some twoSampleBuffer }

/-- Trace for block replacement: play at context time 1, poll once at
`1 + 1/24000` (progress reaches 50), then pause at the same instant
(accumulated offset `1/24000`). -/
def pausedMidway : TState :=
  pause (1 + 1/24000) (pollStep (1 + 1/24000) (play 1 readyState))

/-- The state after a new block (bytes `[1, 0, 2, 0]`) replaces the old
one while `pausedMidway`. -/
def replacedState : TState :=
  (blockReplace (DecodeInput.bytes [1, 0, 2, 0]) pausedMidway).1

/-- Trace for progress re-basing: play at context time 1 and poll at
`1 + 1/12000`, exactly the buffer duration, so playback completes. -/
def completedState : TState :=
  pollStep (1 + 1/12000) (play 1 readyState)

/-- A direct `play()` call at context time 2 on the completed state
(progress still 100). -/
def restartedState : TState :=
  play 2 completedState

/-- The first poll of the restarted session, fired at the session-start
instant. -/
def repolledState : TState :=
  pollStep 2 restartedState

/-- A state in the middle of a live session (for witnesses). -/
def playingState : TState :=
  { readyState with isPlaying := true, startTime := 1, animFrame := true,
                    units := [{ startCtxTime := 1, offset := 0, stopped := false }],
                    srcRef := some 0 }

/-- A state whose referenced source node has already been stopped, so a
further raw stop on it rejects (for witnesses). -/
def stoppedUnitState : TState :=
  { readyState with isPlaying := true, animFrame := true,
                    units := [{ startCtxTime := 0, offset := 0, stopped := true }],
                    srcRef := some 0 }

/-! Helper lemmas. -/

theorem stop_pauseTime (s : TState) : (stop s).pauseTime = s.pauseTime := rfl

theorem stop_startTime (s : TState) : (stop s).startTime = s.startTime := rfl

theorem stop_progress (s : TState) : (stop s).progress = s.progress := rfl

theorem stop_buffer (s : TState) : (stop s).buffer = s.buffer := rfl

theorem stop_ctx (s : TState) : (stop s).ctx = s.ctx := rfl

theorem pause_progress (now : ℚ) (s : TState) :
    (pause now s).progress = s.progress := by
  unfold pause
  cases s.ctx <;> rfl

theorem pause_ctx (now : ℚ) (s : TState) : (pause now s).ctx = s.ctx := by
  unfold pause
  cases hc : s.ctx <;> simp [stop, hc]

theorem pause_startTime (now : ℚ) (s : TState) :
    (pause now s).startTime = s.startTime := by
  unfold pause
  cases s.ctx <;> rfl

theorem pause_pauseTime_of_ctx (now : ℚ) (s : TState) (c : CtxState)
    (hc : s.ctx = some c) :
    (pause now s).pauseTime = s.pauseTime + (now - s.startTime) := by
  unfold pause
  rw [hc]
  rfl

theorem pause_pauseTime_of_none (now : ℚ) (s : TState) (hc : s.ctx = none) :
    (pause now s).pauseTime = s.pauseTime := by
  unfold pause
  rw [hc]

/-- Fields of `play` when context and buffer are present. -/
theorem play_eq_of_some (now : ℚ) (s : TState) (c : CtxState) (b : SampleBuffer)
    (hc : s.ctx = some c) (hb : s.buffer = some b) :
    play now s =
      { s with ctx := some (if c = CtxState.suspended then CtxState.running else c),
               units := s.units ++
                 [{ startCtxTime := now, offset := s.pauseTime, stopped := false }],
               srcRef := some s.units.length,
               startTime := now,
               isPlaying := true,
               animFrame := true } := by
  unfold play
  rw [hc, hb]

/-- `play` is the identity when the context or the buffer ref is empty. -/
theorem play_eq_of_none (now : ℚ) (s : TState)
    (h : s.ctx = none ∨ s.buffer = none) : play now s = s := by
  unfold play
  rcases h with h | h
  · rw [h]
  · rw [h]
    cases s.ctx <;> rfl

theorem percent_mono (d e1 e2 : ℚ) (hd : 0 < d) (h : e1 ≤ e2) :
    min (e1 / d * 100) 100 ≤ min (e2 / d * 100) 100 := by
  have h1 : e1 / d ≤ e2 / d := (div_le_div_iff_of_pos_right hd).mpr h
  have h2 : e1 / d * 100 ≤ e2 / d * 100 :=
    mul_le_mul_of_nonneg_right h1 (by norm_num)
  exact min_le_min h2 le_rfl

theorem toInt16Pairs_length : ∀ bs : List ℕ, (toInt16Pairs bs).length = bs.length / 2
  | [] => rfl
  | [_] => by norm_num [toInt16Pairs]
  | _ :: _ :: rest => by
    simp only [toInt16Pairs, List.length_cons, toInt16Pairs_length rest]
    omega

theorem toInt16Pairs_getD : ∀ (bs : List ℕ) (i : ℕ), 2 * i + 1 < bs.length →
    (toInt16Pairs bs).getD i 0 = int16FromLE (bs.getD (2 * i) 0) (bs.getD (2 * i + 1) 0)
  | [], _, h => by simp at h
  | [_], _, h => by
    simp only [List.length_cons, List.length_nil] at h
    omega
  | lo :: hi :: rest, 0, _ => rfl
  | lo :: hi :: rest, i + 1, h => by
    have h2 : 2 * i + 1 < rest.length := by
      simp only [List.length_cons] at h
      omega
    have e1 : 2 * (i + 1) = 2 * i + 1 + 1 := by omega
    rw [e1]
    simp only [toInt16Pairs, List.getD_cons_succ]
    exact toInt16Pairs_getD rest i h2

theorem int16FromLE_range (lo hi : ℕ) :
    -32768 ≤ int16FromLE lo hi ∧ int16FromLE lo hi ≤ 32767 := by
  unfold int16FromLE
  have h1 : lo % 256 < 256 := Nat.mod_lt _ (by norm_num)
  have h2 : hi % 256 < 256 := Nat.mod_lt _ (by norm_num)
  split <;> constructor <;> omega

theorem int16_sample_range (v : ℤ) (h1 : -32768 ≤ v) (h2 : v ≤ 32767) :
    -1 ≤ (v : ℚ) / 32768 ∧ (v : ℚ) / 32768 ≤ 1 := by
  constructor
  · rw [le_div_iff₀ (by norm_num : (0:ℚ) < 32768)]
    have h3 : (-32768 : ℚ) ≤ (v : ℚ) := by exact_mod_cast h1
    linarith
  · rw [div_le_one (by norm_num : (0:ℚ) < 32768)]
    have h3 : (v : ℚ) ≤ 32767 := by exact_mod_cast h2
    linarith

/-- One transport call keeps the accumulated offset non-negative and
non-decreasing, and keeps the recorded session start no later than the
call's timestamp. -/
theorem ppStep_bounds (s : TState) (a : PPAct) (t0 : ℚ)
    (hst : s.startTime ≤ t0) (hpt : 0 ≤ s.pauseTime) (ht : t0 ≤ a.time) :
    s.pauseTime ≤ (ppStep s a).pauseTime ∧ 0 ≤ (ppStep s a).pauseTime ∧
    (ppStep s a).startTime ≤ a.time := by
  cases a with
  | playAt t =>
    simp only [ppStep, PPAct.time] at *
    cases hc : s.ctx with
    | none =>
      rw [play_eq_of_none t s (Or.inl hc)]
      exact ⟨le_rfl, hpt, le_trans hst ht⟩
    | some c =>
      cases hb : s.buffer with
      | none =>
        rw [play_eq_of_none t s (Or.inr hb)]
        exact ⟨le_rfl, hpt, le_trans hst ht⟩
      | some b =>
        rw [play_eq_of_some t s c b hc hb]
        exact ⟨le_rfl, hpt, le_rfl⟩
  | pauseAt t =>
    simp only [ppStep, PPAct.time] at *
    cases hc : s.ctx with
    | none =>
      rw [pause_pauseTime_of_none t s hc]
      refine ⟨le_rfl, hpt, ?_⟩
      rw [pause_startTime]
      exact le_trans hst ht
    | some c =>
      rw [pause_pauseTime_of_ctx t s c hc, pause_startTime]
      have hts : s.startTime ≤ t := le_trans hst ht
      exact ⟨by linarith, by linarith, le_trans hst ht⟩

/-- Over any time-monotone sequence of `play`/`pause` calls the
accumulated offset is monotone and non-negative. -/
theorem ppRun_pauseTime_bounds :
    ∀ (acts : List PPAct) (s : TState) (t0 : ℚ),
      s.startTime ≤ t0 → 0 ≤ s.pauseTime → timesMonoB t0 acts = true →
      s.pauseTime ≤ (ppRun s acts).pauseTime ∧ 0 ≤ (ppRun s acts).pauseTime
  | [], s, t0, _, hpt, _ => ⟨le_rfl, hpt⟩
  | a :: rest, s, t0, hst, hpt, hm => by
    simp only [timesMonoB, Bool.and_eq_true, decide_eq_true_eq] at hm
    obtain ⟨ht, hm2⟩ := hm
    obtain ⟨h1, h2, h3⟩ := ppStep_bounds s a t0 hst hpt ht
    obtain ⟨h4, h5⟩ := ppRun_pauseTime_bounds rest (ppStep s a) a.time h3 h2 hm2
    exact ⟨le_trans h1 h4, h5⟩

/-- A poll with no pending callback does nothing. -/
theorem pollStep_of_no_frame (t : ℚ) (s : TState) (h : s.animFrame = false) :
    pollStep t s = s := by
  simp [pollStep, h]

/-- A poll whose guard fails (missing context, zero start timestamp, or
missing buffer) only consumes the pending callback. -/
theorem pollStep_guard_fail (t : ℚ) (s : TState) (ha : s.animFrame = true)
    (h : s.ctx = none ∨ s.startTime = 0 ∨ s.buffer = none) :
    pollStep t s = { s with animFrame := false } := by
  obtain ⟨ip, pr, cx, bf, st, pt, af, un, sr⟩ := s
  simp only at ha ⊢
  subst ha
  rcases h with h | h | h <;> simp only at h
  · subst h
    rfl
  · subst h
    cases cx with
    | none => rfl
    | some c =>
      cases bf with
      | none => rfl
      | some b => simp [pollStep, updateProgress]
  · subst h
    cases cx <;> rfl

/-- A poll that passes the guard and has not yet reached the buffer
duration writes the percent formula and re-queues itself. -/
theorem pollStep_requeue (t : ℚ) (s : TState) (c : CtxState) (buf : SampleBuffer)
    (ha : s.animFrame = true) (hc : s.ctx = some c) (hb : s.buffer = some buf)
    (h0 : s.startTime ≠ 0) (hlt : t - s.startTime + s.pauseTime < buf.duration) :
    pollStep t s =
      { s with progress := min ((t - s.startTime + s.pauseTime) / buf.duration * 100) 100 } := by
  obtain ⟨ip, pr, cx, bf2, st, pt, af, un, sr⟩ := s
  simp only at ha hc hb h0 hlt ⊢
  subst ha hc hb
  simp [pollStep, updateProgress, h0, hlt]

/-- A poll that passes the guard with elapsed at or past the buffer
duration declares completion. -/
theorem pollStep_complete (t : ℚ) (s : TState) (c : CtxState) (buf : SampleBuffer)
    (ha : s.animFrame = true) (hc : s.ctx = some c) (hb : s.buffer = some buf)
    (h0 : s.startTime ≠ 0) (hge : buf.duration ≤ t - s.startTime + s.pauseTime) :
    pollStep t s =
      { s with progress := 100, isPlaying := false, pauseTime := 0,
               animFrame := false } := by
  obtain ⟨ip, pr, cx, bf2, st, pt, af, un, sr⟩ := s
  simp only at ha hc hb h0 hge ⊢
  subst ha hc hb
  simp [pollStep, updateProgress, h0, not_lt.mpr hge]

/-- Decode failures leave the stored buffer (and the rest of the
playback state) untouched and end up in the console log. -/
theorem decodeAudioRun_error (inp : DecodeInput) (s : TState) (e : DecodeError)
    (he : decodeAudio inp = Except.error e) :
    (decodeAudioRun inp s).1.buffer = s.buffer ∧
    (decodeAudioRun inp s).1.progress = s.progress ∧
    (decodeAudioRun inp s).1.pauseTime = s.pauseTime ∧
    (decodeAudioRun inp s).2 = some e := by
  unfold decodeAudioRun
  rw [he]
  by_cases h : s.ctx.isNone <;> simp [h]

/-- `pause` with a present context is `stop` plus the offset
accumulation. -/
theorem pause_eq_of_some (now : ℚ) (s : TState) (c : CtxState) (hc : s.ctx = some c) :
    pause now s = { stop s with pauseTime := s.pauseTime + (now - s.startTime) } := by
  unfold pause
  rw [hc]
  rfl

/-- Literal value of the state after `play` at context time 1 from the
ready state. -/
theorem playOneReady_eq : play 1 readyState =
    { isPlaying := true, progress := 0, ctx := some CtxState.running,
      buffer := some twoSampleBuffer, startTime := 1, pauseTime := 0,
      animFrame := true,
      units := [{ startCtxTime := 1, offset := 0, stopped := false }],
      srcRef := some 0 } := rfl

/-- Literal value of the completed trace state: the poll at
`1 + 1/12000` hits the duration exactly and completes. -/
theorem completedState_eq :
    completedState =
      { isPlaying := false, progress := 100, ctx := some CtxState.running,
        buffer := some twoSampleBuffer, startTime := 1, pauseTime := 0,
        animFrame := false,
        units := [{ startCtxTime := 1, offset := 0, stopped := false }],
        srcRef := some 0 } := by
  unfold completedState
  rw [playOneReady_eq, pollStep_complete _ _ CtxState.running twoSampleBuffer rfl rfl rfl
    (by norm_num) (by norm_num [twoSampleBuffer, SampleBuffer.duration])]

/-- Literal value of the state after a direct `play` at context time 2 on
the completed state: progress is still 100. -/
theorem restartedState_eq :
    restartedState =
      { isPlaying := true, progress := 100, ctx := some CtxState.running,
        buffer := some twoSampleBuffer, startTime := 2, pauseTime := 0,
        animFrame := true,
        units := [{ startCtxTime := 1, offset := 0, stopped := false },
                  { startCtxTime := 2, offset := 0, stopped := false }],
        srcRef := some 1 } := by
  unfold restartedState
  rw [completedState_eq]
  rfl

/-- Literal value of the first poll of the restarted session, fired at
the session-start instant: progress is written back to 0. -/
theorem repolledState_eq :
    repolledState =
      { isPlaying := true, progress := 0, ctx := some CtxState.running,
        buffer := some twoSampleBuffer, startTime := 2, pauseTime := 0,
        animFrame := true,
        units := [{ startCtxTime := 1, offset := 0, stopped := false },
                  { startCtxTime := 2, offset := 0, stopped := false }],
        srcRef := some 1 } := by
  unfold repolledState
  rw [restartedState_eq, pollStep_requeue _ _ CtxState.running twoSampleBuffer rfl rfl rfl
    (by norm_num) (by norm_num [twoSampleBuffer, SampleBuffer.duration])]
  simp only [TState.mk.injEq]
  norm_num [twoSampleBuffer, SampleBuffer.duration, min_def]

/-- Literal value of the paused-midway trace state: progress 50,
accumulated offset `1/24000`. -/
theorem pausedMidway_eq :
    pausedMidway =
      { isPlaying := false, progress := 50, ctx := some CtxState.running,
        buffer := some twoSampleBuffer, startTime := 1, pauseTime := 1/24000,
        animFrame := false,
        units := [{ startCtxTime := 1, offset := 0, stopped := true }],
        srcRef := none } := by
  unfold pausedMidway
  rw [playOneReady_eq, pollStep_requeue _ _ CtxState.running twoSampleBuffer rfl rfl rfl
    (by norm_num) (by norm_num [twoSampleBuffer, SampleBuffer.duration]),
    pause_eq_of_some _ _ CtxState.running rfl]
  simp only [stop, SourceNode.primStop, TState.mk.injEq]
  norm_num [twoSampleBuffer, SampleBuffer.duration, min_def, List.getD, List.set]

/-- Literal value of the state after the block replacement on the
paused-midway state: the stale offset and progress survive, the context
is closed, and the new buffer is installed. -/
theorem replacedState_eq :
    replacedState =
      { isPlaying := false, progress := 50, ctx := some CtxState.closed,
        buffer := some { samples := [1/32768, 2/32768], numChannels := 1,
                         sampleRate := 24000 },
        startTime := 1, pauseTime := 1/24000,
        animFrame := false,
        units := [{ startCtxTime := 1, offset := 0, stopped := true }],
        srcRef := none } := by
  unfold replacedState blockReplace
  rw [pausedMidway_eq]
  simp [stop, closeCtx, decodeAudioRun, decodeAudio, toInt16Pairs, int16FromLE]

/-! Claim theorems. -/

/-- Claim C1 counterexample: calling `play()` twice in a row without an
intervening `pause()`/`stop()` leaves TWO playback units playing
concurrently.  From the ready state (two-sample buffer, duration
`1/12000` s), `play` at context time 0 and again at `1/100000` leaves
both created source nodes audibly playing at time `1/50000`: the second
`play` overwrites the unit reference without stopping the first unit. -/
theorem play_twice_leaves_two_live_units :
    liveUnitCount (play (1/100000) (play 0 readyState)) (1/50000) = 2 := by
  have h1 : play (1/100000) (play 0 readyState) =
      { isPlaying := true, progress := 0, ctx := some CtxState.running,
        buffer := some twoSampleBuffer, startTime := 1/100000, pauseTime := 0,
        animFrame := true,
        units := [{ startCtxTime := 0, offset := 0, stopped := false },
                  { startCtxTime := 1/100000, offset := 0, stopped := false }],
        srcRef := some 1 } := rfl
  have hp1 : SourceNode.playingAt twoSampleBuffer.duration (1/50000)
      { startCtxTime := 0, offset := 0, stopped := false } = true := by
    simp only [SourceNode.playingAt, Bool.and_eq_true, decide_eq_true_eq,
      Bool.not_eq_true']
    norm_num [twoSampleBuffer, SampleBuffer.duration]
  have hp2 : SourceNode.playingAt twoSampleBuffer.duration (1/50000)
      { startCtxTime := 1/100000, offset := 0, stopped := false } = true := by
    simp only [SourceNode.playingAt, Bool.and_eq_true, decide_eq_true_eq,
      Bool.not_eq_true']
    norm_num [twoSampleBuffer, SampleBuffer.duration]
  rw [h1]
  simp only [liveUnitCount, List.filter]
  rw [hp1, hp2]
  rfl

/-- Claim C1 amended: `play()` never throws (it is a total state
transformer) and, when a context and buffer are present, it appends a
fresh playback unit seeded at the stored offset WITHOUT stopping any
previously created unit — the prior units list is preserved as a prefix
unchanged — and it references only the new unit. -/
theorem play_appends_unit_without_stopping (now : ℚ) (s : TState) (c : CtxState)
    (b : SampleBuffer) (hc : s.ctx = some c) (hb : s.buffer = some b) :
    (play now s).units =
      s.units ++ [{ startCtxTime := now, offset := s.pauseTime, stopped := false }] ∧
    (play now s).srcRef = some s.units.length ∧
    (play now s).isPlaying = true ∧
    (play now s).startTime = now ∧
    (play now s).buffer = s.buffer ∧
    (play now s).pauseTime = s.pauseTime := by
  rw [play_eq_of_some now s c b hc hb]
  exact ⟨rfl, rfl, rfl, rfl, rfl, rfl⟩

/-- Witness for the amended C1 theorem at the concrete ready state. -/
theorem play_appends_unit_without_stopping_witness :
    (play 3 readyState).units =
      readyState.units ++ [{ startCtxTime := 3, offset := readyState.pauseTime, stopped := false }] ∧
    (play 3 readyState).srcRef = some readyState.units.length ∧
    (play 3 readyState).isPlaying = true ∧
    (play 3 readyState).startTime = 3 ∧
    (play 3 readyState).buffer = readyState.buffer ∧
    (play 3 readyState).pauseTime = readyState.pauseTime :=
  play_appends_unit_without_stopping 3 readyState CtxState.running twoSampleBuffer rfl rfl

/-- Claim C3 counterexample: the empty base64 text decodes to an even
number of bytes (0 = 2·0) but produces NO buffer: `ctx.createBuffer`
rejects a frame count of 0, so the decode fails instead of yielding a
0-sample buffer. -/
theorem decode_empty_even_input_no_buffer :
    decodeAudio (DecodeInput.bytes []) = Except.error DecodeError.emptyBuffer ∧
    (List.nil : List ℕ).length = 2 * 0 := by
  exact ⟨rfl, rfl⟩

/-- Claim C3 amended: for every base64 input that decodes to an even,
POSITIVE number `2n` of bytes (`n ≥ 1`), the decoder produces a buffer of
exactly `n` samples, one channel, 24000 Hz, where sample `i` is the
signed 16-bit little-endian integer of bytes `2i`, `2i+1` divided by
32768, and every sample lies in `[-1, 1]`. -/
theorem decode_even_buffer_characterization (bs : List ℕ) (n : ℕ)
    (hlen : bs.length = 2 * n) (hn : 1 ≤ n) :
    ∃ buf : SampleBuffer,
      decodeAudio (DecodeInput.bytes bs) = Except.ok buf ∧
      buf.samples.length = n ∧ buf.numChannels = 1 ∧ buf.sampleRate = 24000 ∧
      ∀ i : ℕ, i < n →
        buf.samples.getD i 0 =
          (int16FromLE (bs.getD (2 * i) 0) (bs.getD (2 * i + 1) 0) : ℚ) / 32768 ∧
        -1 ≤ buf.samples.getD i 0 ∧ buf.samples.getD i 0 ≤ 1 := by
  have hmod : ¬ bs.length % 2 ≠ 0 := by omega
  have hlen2 : (toInt16Pairs bs).length = n := by
    rw [toInt16Pairs_length]
    omega
  have hne : ¬ (toInt16Pairs bs).length = 0 := by omega
  refine ⟨{ samples := (toInt16Pairs bs).map (fun v : ℤ => (v : ℚ) / 32768),
            numChannels := 1, sampleRate := 24000 }, ?_, ?_, rfl, rfl, ?_⟩
  · simp [decodeAudio, hmod, hne]
  · simpa using hlen2
  · intro i hi
    have hi1 : i < (toInt16Pairs bs).length := by omega
    have hi2 : i < ((toInt16Pairs bs).map (fun v : ℤ => (v : ℚ) / 32768)).length := by
      simpa using hi1
    have hbound : 2 * i + 1 < bs.length := by omega
    have hget : ((toInt16Pairs bs).map (fun v : ℤ => (v : ℚ) / 32768)).getD i 0 =
        (int16FromLE (bs.getD (2 * i) 0) (bs.getD (2 * i + 1) 0) : ℚ) / 32768 := by
      rw [List.getD_eq_getElem _ _ hi2, List.getElem_map,
          ← List.getD_eq_getElem _ _ hi1, toInt16Pairs_getD bs i hbound]
    obtain ⟨hr1, hr2⟩ := int16FromLE_range (bs.getD (2 * i) 0) (bs.getD (2 * i + 1) 0)
    obtain ⟨hq1, hq2⟩ := int16_sample_range _ hr1 hr2
    refine ⟨hget, ?_, ?_⟩
    · rw [hget]; exact hq1
    · rw [hget]; exact hq2

/-- Witness for the amended C3 theorem on the concrete two-byte input
`[18, 52]` (one sample, value 13330/32768). -/
theorem decode_even_buffer_characterization_witness :
    ∃ buf : SampleBuffer,
      decodeAudio (DecodeInput.bytes [18, 52]) = Except.ok buf ∧
      buf.samples.length = 1 ∧ buf.numChannels = 1 ∧ buf.sampleRate = 24000 ∧
      ∀ i : ℕ, i < 1 →
        buf.samples.getD i 0 =
          (int16FromLE ([18, 52].getD (2 * i) 0) ([18, 52].getD (2 * i + 1) 0) : ℚ) / 32768 ∧
        -1 ≤ buf.samples.getD i 0 ∧ buf.samples.getD i 0 ≤ 1 :=
  decode_even_buffer_characterization [18, 52] 1 rfl le_rfl

/-- Claim C4 counterexample: a malformed base64 input does fail inside
the decode, but the failure is NOT surfaced to the caller: the
`try`/`catch` around the effect body swallows it, the async effect
settles normally (`Except.ok`), and the error goes only to the console
log. -/
theorem decode_error_swallowed_not_surfaced :
    decodeAudioCallerOutcome DecodeInput.malformed initState =
      Except.ok { initState with ctx := some CtxState.running } ∧
    decodeAudio DecodeInput.malformed = Except.error DecodeError.malformedBase64 ∧
    (decodeAudioRun DecodeInput.malformed initState).2 =
      some DecodeError.malformedBase64 := by
  exact ⟨rfl, rfl, rfl⟩

/-- Claim C4 amended: decoding malformed base64, or a byte sequence of
odd length, fails with the corresponding decode error; the error is
caught and logged to the console (the caller-visible outcome of the
effect is normal completion), and no partial sample buffer is produced —
the stored buffer, progress and offset are untouched. -/
theorem decode_failure_logged_no_partial_buffer (bs : List ℕ) (s : TState)
    (hodd : bs.length % 2 = 1) :
    decodeAudio DecodeInput.malformed = Except.error DecodeError.malformedBase64 ∧
    decodeAudio (DecodeInput.bytes bs) = Except.error DecodeError.oddByteLength ∧
    (decodeAudioRun DecodeInput.malformed s).1.buffer = s.buffer ∧
    (decodeAudioRun (DecodeInput.bytes bs) s).1.buffer = s.buffer ∧
    (decodeAudioRun DecodeInput.malformed s).2 = some DecodeError.malformedBase64 ∧
    (decodeAudioRun (DecodeInput.bytes bs) s).2 = some DecodeError.oddByteLength ∧
    decodeAudioCallerOutcome (DecodeInput.bytes bs) s =
      Except.ok (decodeAudioRun (DecodeInput.bytes bs) s).1 := by
  have hdec : decodeAudio (DecodeInput.bytes bs) = Except.error DecodeError.oddByteLength := by
    have h2 : bs.length % 2 ≠ 0 := by omega
    simp [decodeAudio, h2]
  obtain ⟨hm1, _, _, hm2⟩ := decodeAudioRun_error DecodeInput.malformed s
    DecodeError.malformedBase64 rfl
  obtain ⟨ho1, _, _, ho2⟩ := decodeAudioRun_error (DecodeInput.bytes bs) s
    DecodeError.oddByteLength hdec
  exact ⟨rfl, hdec, hm1, ho1, hm2, ho2, rfl⟩

/-- Witness for the amended C4 theorem on the odd one-byte input `[7]`. -/
theorem decode_failure_logged_no_partial_buffer_witness :
    (decodeAudioRun (DecodeInput.bytes [7]) initState).1.buffer = initState.buffer ∧
    (decodeAudioRun (DecodeInput.bytes [7]) initState).2 =
      some DecodeError.oddByteLength :=
  ⟨(decode_failure_logged_no_partial_buffer [7] initState rfl).2.2.2.1,
   (decode_failure_logged_no_partial_buffer [7] initState rfl).2.2.2.2.2.1⟩

/-- Claim C5 counterexample: the accumulated resume offset CAN exceed the
buffer duration.  On the two-sample buffer (duration `1/12000` s), the
time-monotone call sequence play at 0, pause at `1/20000` (a normal
mid-play pause), pause again at `1/10000` (pause while not playing, which
the interface permits) accumulates `3/20000 > 1/12000`. -/
theorem double_pause_exceeds_duration :
    twoSampleBuffer.duration <
      (ppRun readyState
        [PPAct.playAt 0, PPAct.pauseAt (1/20000), PPAct.pauseAt (1/10000)]).pauseTime := by
  simp only [ppRun, ppStep]
  have h1 : play 0 readyState =
      { isPlaying := true, progress := 0, ctx := some CtxState.running,
        buffer := some twoSampleBuffer, startTime := 0, pauseTime := 0,
        animFrame := true,
        units := [{ startCtxTime := 0, offset := 0, stopped := false }],
        srcRef := some 0 } := rfl
  rw [h1, pause_eq_of_some _ _ CtxState.running rfl]
  rw [pause_eq_of_some _ _ CtxState.running rfl]
  simp [stop, SourceNode.primStop, List.getD, List.set]
  norm_num [twoSampleBuffer, SampleBuffer.duration]

/-- Claim C5 amended: `pause()` during an active session (context
present) adds exactly `contextNow - sessionStart` to the accumulated
offset, and across any time-monotone sequence of `play()`/`pause()` calls
the offset is monotone non-decreasing and non-negative; it is NOT bounded
by the buffer duration (repeated `pause()` without an intervening
`play()` can push it past the duration). -/
theorem pause_accumulates_monotone_nonneg (now t0 : ℚ) (s : TState) (c : CtxState)
    (acts : List PPAct) (hc : s.ctx = some c) (hst : s.startTime ≤ t0)
    (hpt : 0 ≤ s.pauseTime) (hm : timesMonoB t0 acts = true) :
    (pause now s).pauseTime = s.pauseTime + (now - s.startTime) ∧
    s.pauseTime ≤ (ppRun s acts).pauseTime ∧ 0 ≤ (ppRun s acts).pauseTime := by
  obtain ⟨h1, h2⟩ := ppRun_pauseTime_bounds acts s t0 hst hpt hm
  exact ⟨pause_pauseTime_of_ctx now s c hc, h1, h2⟩

/-- Witness for the amended C5 theorem: a concrete play/pause/play
sequence from the ready state. -/
theorem pause_accumulates_monotone_nonneg_witness :
    (pause 2 readyState).pauseTime = readyState.pauseTime + (2 - readyState.startTime) ∧
    readyState.pauseTime ≤
      (ppRun readyState [PPAct.playAt 0, PPAct.pauseAt 1, PPAct.playAt 2]).pauseTime ∧
    0 ≤ (ppRun readyState [PPAct.playAt 0, PPAct.pauseAt 1, PPAct.playAt 2]).pauseTime :=
  pause_accumulates_monotone_nonneg 2 0 readyState CtxState.running
    [PPAct.playAt 0, PPAct.pauseAt 1, PPAct.playAt 2] rfl le_rfl le_rfl (by decide)

/-- Claim C6: `togglePlay()` pauses when playing; otherwise, when
progress has reached 100, it zeroes the accumulated offset and the
progress readout before calling `play`; otherwise it calls `play` on the
unchanged state, resuming from the stored offset. -/
theorem togglePlay_dispatch (now : ℚ) (s : TState) :
    (s.isPlaying = true → togglePlay now s = pause now s) ∧
    (s.isPlaying = false → 100 ≤ s.progress →
      togglePlay now s = play now { s with pauseTime := 0, progress := 0 }) ∧
    (s.isPlaying = false → s.progress < 100 →
      togglePlay now s = play now s) := by
  refine ⟨fun h => ?_, fun h hp => ?_, fun h hp => ?_⟩
  · simp [togglePlay, h]
  · simp [togglePlay, h, hp]
  · simp [togglePlay, h, not_le.mpr hp]

/-- Witness for the C6 theorem: toggling the concrete playing state
pauses it, and toggling the completed state replays from offset 0. -/
theorem togglePlay_dispatch_witness :
    togglePlay 2 playingState = pause 2 playingState ∧
    togglePlay 2 completedState =
      play 2 { completedState with pauseTime := 0, progress := 0 } :=
  ⟨(togglePlay_dispatch 2 playingState).1 rfl,
   (togglePlay_dispatch 2 completedState).2.1 (by rw [completedState_eq])
     (by rw [completedState_eq])⟩

/-- Claim C7 (code bug, concrete evaluation): replacing the audio block
does NOT fully reset the player state.  From the paused-midway trace
(offset `1/24000`, progress 50), replacing the block with bytes
`[1, 0, 2, 0]` keeps the stale offset and progress, closes the audio
context while keeping its ref (so no fresh context is created), and a
subsequent `play()` starts the NEW buffer at the STALE offset on the
closed context. -/
theorem block_replace_keeps_offset_progress_closed_ctx :
    pausedMidway.pauseTime = 1/24000 ∧ pausedMidway.progress = 50 ∧
    replacedState.pauseTime = 1/24000 ∧ replacedState.progress = 50 ∧
    replacedState.ctx = some CtxState.closed ∧
    replacedState.buffer =
      some { samples := [1/32768, 2/32768], numChannels := 1, sampleRate := 24000 } ∧
    (play 2 replacedState).units.getLast? =
      some { startCtxTime := 2, offset := 1/24000, stopped := false } := by
  rw [pausedMidway_eq, replacedState_eq]
  exact ⟨rfl, rfl, rfl, rfl, rfl, rfl, rfl⟩

/-- Claim C9: `stop()` is a total operation that never propagates an
error: when the referenced playback unit rejects the raw stop (already
stopped), the rejection is swallowed and the units are left as they are;
in every case the unit reference is cleared, the pending poll callback is
cancelled, `isPlaying` becomes false, and the rest of the state is
untouched; with no referenced unit, `stop()` is likewise a safe no-op on
the units. -/
theorem stop_never_throws_spec (s : TState) :
    (stop s).srcRef = none ∧ (stop s).isPlaying = false ∧
    (stop s).animFrame = false ∧ (stop s).buffer = s.buffer ∧
    (stop s).pauseTime = s.pauseTime ∧ (stop s).startTime = s.startTime ∧
    (stop s).progress = s.progress ∧ (stop s).ctx = s.ctx ∧
    (s.srcRef = none → (stop s).units = s.units) ∧
    (∀ i, s.srcRef = some i → (s.units.getD i default).stopped = true →
      (stop s).units = s.units) := by
  refine ⟨rfl, rfl, rfl, rfl, rfl, rfl, rfl, rfl, fun h => ?_, fun i h hstopped => ?_⟩
  · simp [stop, h]
  · have h2 : (s.units[i]?.getD default).stopped = true := by
      simpa [List.getD] using hstopped
    simp [stop, h, SourceNode.primStop, List.getD, h2]

/-- Witness for the C9 theorem: stopping the state whose referenced unit
already rejects the raw stop leaves the units unchanged and clears the
playing flag. -/
theorem stop_never_throws_spec_witness :
    (stop stoppedUnitState).units = stoppedUnitState.units ∧
    (stop stoppedUnitState).isPlaying = false := by
  obtain ⟨-, h2, -, -, -, -, -, -, -, h10⟩ := stop_never_throws_spec stoppedUnitState
  exact ⟨h10 0 rfl rfl, h2⟩

/-- Claim C2: for every polling step while the output context, a recorded
session (nonzero start timestamp, the code's notion of an active session
in `updateProgress`) and a buffer exist, progress is computed as
`elapsed = (contextNow - sessionStart) + elapsedBeforeCurrentSession` and
`progressPercent = min(elapsed / bufferDuration * 100, 100)`; and
whenever elapsed reaches or exceeds the buffer duration, playback is
declared complete: `isPlaying` set false, the accumulated offset reset to
0, progress pinned at 100, and the polling loop not re-queued. -/
theorem progress_poll_spec (t : ℚ) (s : TState) (c : CtxState) (buf : SampleBuffer)
    (ha : s.animFrame = true) (hc : s.ctx = some c) (h0 : s.startTime ≠ 0)
    (hb : s.buffer = some buf) :
    ((pollStep t s).progress =
      if t - s.startTime + s.pauseTime < buf.duration
      then min ((t - s.startTime + s.pauseTime) / buf.duration * 100) 100
      else 100) ∧
    (buf.duration ≤ t - s.startTime + s.pauseTime →
      (pollStep t s).isPlaying = false ∧ (pollStep t s).pauseTime = 0 ∧
      (pollStep t s).progress = 100 ∧ (pollStep t s).animFrame = false) := by
  by_cases hlt : t - s.startTime + s.pauseTime < buf.duration
  · rw [pollStep_requeue t s c buf ha hc hb h0 hlt]
    constructor
    · rw [if_pos hlt]
    · intro hge
      exact absurd hlt (not_lt.mpr hge)
  · have hge : buf.duration ≤ t - s.startTime + s.pauseTime := not_lt.mp hlt
    rw [pollStep_complete t s c buf ha hc hb h0 hge]
    exact ⟨by rw [if_neg hlt], fun _ => ⟨rfl, rfl, rfl, rfl⟩⟩

/-- Witness for the C2 theorem: polling the concrete playing session at
exactly its duration completes it. -/
theorem progress_poll_spec_witness :
    (pollStep (1 + 1/12000) playingState).isPlaying = false ∧
    (pollStep (1 + 1/12000) playingState).pauseTime = 0 ∧
    (pollStep (1 + 1/12000) playingState).progress = 100 ∧
    (pollStep (1 + 1/12000) playingState).animFrame = false :=
  (progress_poll_spec (1 + 1/12000) playingState CtxState.running twoSampleBuffer
    rfl rfl (by norm_num [playingState, readyState, initState]) rfl).2
    (by norm_num [twoSampleBuffer, SampleBuffer.duration, playingState, readyState,
      initState])

/-- Claim C8 counterexample: the polling loop CAN reset progress to 0
before completion.  After the completed trace state (progress 100), a
direct `play()` at context time 2 leaves progress at 100; the first poll
of that session, fired at the session-start instant, writes
`min(0/duration*100, 100) = 0` and re-queues itself (the step is not a
completion), so progress is reset from 100 to 0 by the polling loop
itself while playing. -/
theorem poll_rebases_progress_to_zero_before_completion :
    completedState.progress = 100 ∧ completedState.isPlaying = false ∧
    restartedState.progress = 100 ∧ restartedState.isPlaying = true ∧
    repolledState.progress = 0 ∧ repolledState.animFrame = true := by
  rw [completedState_eq, restartedState_eq, repolledState_eq]
  exact ⟨rfl, rfl, rfl, rfl, rfl, rfl⟩

/-- Claim C8 amended: within one session (fixed start timestamp and
offset), the progress readout is monotonically non-decreasing across
successive polling steps, and neither `pause()` nor `stop()` ever changes
the progress readout; the polling loop always writes
`min(elapsed/duration*100, 100)`, which can re-base stale progress
(including down to 0) only after a direct `play()` restarted the session. -/
theorem progress_monotone_within_session (s : TState) (buf : SampleBuffer)
    (t1 t2 now : ℚ) (hb : s.buffer = some buf) (hd : 0 < buf.duration)
    (h12 : t1 ≤ t2) :
    (pollStep t1 s).progress ≤ (pollStep t2 (pollStep t1 s)).progress ∧
    (pause now s).progress = s.progress ∧
    (stop s).progress = s.progress := by
  refine ⟨?_, pause_progress now s, rfl⟩
  by_cases haf : s.animFrame = true
  · cases hc : s.ctx with
    | none =>
      rw [pollStep_guard_fail t1 s haf (Or.inl hc),
        pollStep_of_no_frame t2 _ rfl]
    | some c =>
      by_cases h0 : s.startTime = 0
      · rw [pollStep_guard_fail t1 s haf (Or.inr (Or.inl h0)),
          pollStep_of_no_frame t2 _ rfl]
      · by_cases hlt1 : t1 - s.startTime + s.pauseTime < buf.duration
        · rw [pollStep_requeue t1 s c buf haf hc hb h0 hlt1]
          by_cases hlt2 : t2 - s.startTime + s.pauseTime < buf.duration
          · rw [pollStep_requeue t2
              { s with progress := min ((t1 - s.startTime + s.pauseTime) / buf.duration * 100) 100 }
              c buf haf hc hb h0 hlt2]
            exact percent_mono buf.duration _ _ hd (by linarith)
          · have hge2 : buf.duration ≤ t2 - s.startTime + s.pauseTime := not_lt.mp hlt2
            rw [pollStep_complete t2
              { s with progress := min ((t1 - s.startTime + s.pauseTime) / buf.duration * 100) 100 }
              c buf haf hc hb h0 hge2]
            exact min_le_right _ _
        · have hge1 : buf.duration ≤ t1 - s.startTime + s.pauseTime := not_lt.mp hlt1
          rw [pollStep_complete t1 s c buf haf hc hb h0 hge1,
            pollStep_of_no_frame t2 _ rfl]
  · have haf2 : s.animFrame = false := by simpa using haf
    rw [pollStep_of_no_frame t1 s haf2, pollStep_of_no_frame t2 s haf2]

/-- Witness for the amended C8 theorem: two successive polls of the
concrete playing session are non-decreasing, and pausing it keeps the
readout. -/
theorem progress_monotone_within_session_witness :
    (pollStep (1 + 1/48000) playingState).progress ≤
      (pollStep (1 + 1/24000) (pollStep (1 + 1/48000) playingState)).progress ∧
    (pause 2 playingState).progress = playingState.progress :=
  ⟨(progress_monotone_within_session playingState twoSampleBuffer (1 + 1/48000)
      (1 + 1/24000) 2 rfl (by norm_num [twoSampleBuffer, SampleBuffer.duration])
      (by norm_num)).1,
   (progress_monotone_within_session playingState twoSampleBuffer (1 + 1/48000)
      (1 + 1/24000) 2 rfl (by norm_num [twoSampleBuffer, SampleBuffer.duration])
      (by norm_num)).2.1⟩

/-- Claim C10: when the recorded session start timestamp is exactly 0
(`play()` ran at output-context time 0, making `startTimeRef.current`
falsy), every progress-poll callback returns immediately: progress,
`isPlaying` and the offset are untouched, no completion is declared, and
the callback is not re-queued, so progress stays frozen for that
session. -/
theorem zero_startTime_freezes_progress (t : ℚ) (s sp : TState) (c : CtxState)
    (b : SampleBuffer) (hc : s.ctx = some c) (hb : s.buffer = some b)
    (h0 : sp.startTime = 0) :
    (play 0 s).startTime = 0 ∧
    pollStep t sp = { sp with animFrame := false } ∧
    (pollStep t sp).progress = sp.progress ∧
    (pollStep t sp).isPlaying = sp.isPlaying ∧
    (pollStep t sp).pauseTime = sp.pauseTime := by
  have h1 : (play 0 s).startTime = 0 := by
    rw [play_eq_of_some 0 s c b hc hb]
  have h2 : pollStep t sp = { sp with animFrame := false } := by
    by_cases ha : sp.animFrame = true
    · exact pollStep_guard_fail t sp ha (Or.inr (Or.inl h0))
    · have ha2 : sp.animFrame = false := by simpa using ha
      rw [pollStep_of_no_frame t sp ha2]
      cases sp
      simp only at ha2
      subst ha2
      rfl
  exact ⟨h1, h2, by rw [h2], by rw [h2], by rw [h2]⟩

/-- Witness for the C10 theorem: playing at context time 0 and polling a
zero-start session on the concrete states. -/
theorem zero_startTime_freezes_progress_witness :
    (play 0 readyState).startTime = 0 ∧
    pollStep 5 { playingState with startTime := 0 } =
      { playingState with startTime := 0, animFrame := false } := by
  obtain ⟨h1, h2, -, -, -⟩ := zero_startTime_freezes_progress 5 readyState
    { playingState with startTime := 0 } CtxState.running twoSampleBuffer rfl rfl rfl
  exact ⟨h1, h2⟩

end VideoTranslator
